import Mathlib

/-!
Verification of the e-commerce analysis orchestrator
(`backend/langgraph_agents.py`).

The development shallowly embeds the three-stage state machine
(Fetch = `data_extractor`, Analyze = `analyst`, Recommend = `consultant`),
the routing function `should_continue`, the chart-inference helpers
`_extract_charts` / `_generate_default_charts`, and the top-level loop
built by `_build_graph` / `analyze`.

Python dictionaries become insertion-ordered association lists, JSON
values become the mutual inductive `Json`, the LLM completion client
becomes an explicit `Except Unit String` response (`.error` models a
raised exception inside `llm.invoke`), and the Snowflake adapter becomes
a record of pure functions (its outputs are opaque payloads as far as
the orchestrator is concerned).
-/

namespace Ecom

-- JSON-like values, as produced by the Snowflake adapter and by
-- `json.loads` on the analyst's `CHARTS:` section.

mutual

inductive Json where
  | str (s : String)
  | num (n : Int)
  | bool (b : Bool)
  | null
  | arr (elems : JsonList)
  | obj (fields : JsonFields)
deriving Repr, DecidableEq

inductive JsonList where
  | nil
  | cons (v : Json) (rest : JsonList)
deriving Repr, DecidableEq

inductive JsonFields where
  | nil
  | cons (k : String) (v : Json) (rest : JsonFields)
deriving Repr, DecidableEq

end

def JsonList.ofList : List Json → JsonList
  | [] => .nil
  | v :: rest => .cons v (JsonList.ofList rest)

def JsonList.toList : JsonList → List Json
  | .nil => []
  | .cons v rest => v :: rest.toList

def JsonFields.ofList : List (String × Json) → JsonFields
  | [] => .nil
  | (k, v) :: rest => .cons k v (JsonFields.ofList rest)

/-- Python `dict.get(k)` on a JSON object; `none` both for a missing key and for
a non-object payload. -/
def Json.get (v : Json) (key : String) : Option Json :=
  match v with
  | .obj fs => go fs
  | _ => none
where
  go : JsonFields → Option Json
    | .nil => none
    | .cons k v rest => if k = key then some v else go rest

/-- Python truthiness of a JSON value (`if data[k].get(k):`). -/
def Json.truthy : Json → Bool
  | .str s => s ≠ ""
  | .num n => n ≠ 0
  | .bool b => b
  | .null => false
  | .arr .nil => false
  | .arr (.cons _ _) => true
  | .obj .nil => false
  | .obj (.cons _ _ _) => true

/-- Python truthiness of an `Optional` value (`None` is falsy). -/
def optTruthy : Option Json → Bool
  | none => false
  | some v => v.truthy

/-! ### Character-level string primitives

The Python code manipulates LLM responses with `in`, `split`, `strip`,
`lstrip`, `startswith`, `replace` and `lower`.  We implement these over
`List Char` by structural recursion so that every theorem's witness can
be checked by plain kernel reduction. -/

/-- If `pat` is a prefix of `s`, return the remainder of `s`. -/
def dropPre : List Char → List Char → Option (List Char)
  | [], s => some s
  | _ :: _, [] => none
  | p :: ps, c :: cs => if p = c then dropPre ps cs else none

/-- Split at the first occurrence of `pat`: `some (before, after)`, with
`pat` itself removed.  `none` when `pat` does not occur (for non-empty
`pat` this is exactly Python's `pat in s` being false). -/
def splitFirst (pat : List Char) : List Char → Option (List Char × List Char)
  | [] => match pat with
          | [] => some ([], [])
          | _ :: _ => none
  | c :: rest =>
      match dropPre pat (c :: rest) with
      | some tail => some ([], tail)
      | none =>
          match splitFirst pat rest with
          | some (a, b) => some (c :: a, b)
          | none => none

/-- Python `pat in s` for a non-empty pattern. -/
def containsPat (pat s : List Char) : Bool :=
  (splitFirst pat s).isSome

/-- Python `s.split(pat)[1]`: the text between the first and second
occurrence of `pat` (to the end when `pat` occurs only once).  Returns
`[]` when `pat` does not occur at all (Python would raise; all call
sites guard with `pat in s` first). -/
def partAfter (pat s : List Char) : List Char :=
  match splitFirst pat s with
  | none => []
  | some (_, tail) =>
      match splitFirst pat tail with
      | some (a, _) => a
      | none => tail

/-- Python `s.split(pat)[0]`: the text before the first occurrence of
`pat` (the whole string when `pat` does not occur). -/
def partBefore (pat s : List Char) : List Char :=
  match splitFirst pat s with
  | some (a, _) => a
  | none => s

/-- Python `s.strip()` (ASCII whitespace suffices for our inputs). -/
def trimChars (s : List Char) : List Char :=
  ((s.dropWhile Char.isWhitespace).reverse.dropWhile Char.isWhitespace).reverse

/-- Python `s.lstrip(chars)`. -/
def lstripChars (chars : List Char) (s : List Char) : List Char :=
  s.dropWhile (fun c => chars.contains c)

/-- Python `s.split("\n")`. -/
def splitNl : List Char → List (List Char)
  | [] => [[]]
  | c :: rest =>
      if c = '\n' then [] :: splitNl rest
      else
        match splitNl rest with
        | [] => [[c]]
        | g :: gs => (c :: g) :: gs

/-- One step of Python `s.replace(pat, rep)`, fuelled by the input
length so the definition is structural. -/
def replaceAllF (pat rep : List Char) : Nat → List Char → List Char
  | 0, s => s
  | _ + 1, [] => []
  | fuel + 1, c :: rest =>
      match dropPre pat (c :: rest) with
      | some tail => rep ++ replaceAllF pat rep fuel tail
      | none => c :: replaceAllF pat rep fuel rest

/-- Python `s.replace(pat, rep)` for a non-empty pattern. -/
def replaceAll (pat rep s : List Char) : List Char :=
  replaceAllF pat rep s.length s

/-- Python `s.lower()` (ASCII; the keyword cues the extractor matches on
are all ASCII). -/
def lowerChars (s : List Char) : List Char :=
  s.map Char.toLower

/-! ### The analysis state

`AnalysisState` mirrors the Pydantic model field by field.  `data` is an
insertion-ordered association list, as a Python `dict` is. -/

abbrev Dict := List (String × Json)

/-- Python `k in d` / `d.get(k)` for the `data` dictionary. -/
def dictLookup (d : Dict) (k : String) : Option Json :=
  match d with
  | [] => none
  | (k', v) :: rest => if k' = k then some v else dictLookup rest k

structure AnalysisState where
  query : String := ""
  data : Dict := []
  analysis : String := ""
  recommendations : String := ""
  charts : List Json := []
  needs_more_data : Bool := false
  data_requests : List String := []
  iteration_count : Int := 0
deriving Repr, DecidableEq

/-- The initial state built by `EcommerceAgents.analyze`. -/
def initialState (query : String) : AnalysisState :=
  { query := query, data := [], analysis := "", recommendations := "",
    charts := [], needs_more_data := false, data_requests := [],
    iteration_count := 0 }

/-- Source `EcommerceAgents.should_continue`: route from Analyze either back to
Fetch (`"data_extractor"`) or on to Recommend (`"consultant"`). -/
def should_continue (s : AnalysisState) : String :=
  if s.iteration_count > 3 then "consultant"
  else if s.needs_more_data && s.data_requests.length > 0 then "data_extractor"
  else "consultant"

/-! ### The Fetch stage (`data_extractor`)

The Snowflake adapter is modelled as a record of pure functions
returning opaque JSON payloads; the completion client's answer is the
`Except Unit String` argument (`.error` models an exception raised by
`llm.invoke`, absorbed by the stage's `try/except`).  The prompt the
stage builds only feeds the completion client, so it does not appear
in the state evolution. -/

structure Tools where
  get_sales_metrics : Int → Json
  get_top_products : Int → Json
  get_customer_segments : Json
  get_sales_trend : Int → Json
  get_revenue_by_category : Json
  get_monthly_comparison : Int → Json
  get_customer_lifetime_value : Int → Json

/-- Python `if key not in existing_data: existing_data[key] = value` (a Python
dict appends new keys at the end). -/
def fetchInto (d : Dict) (key : String) (value : Json) : Dict :=
  if (dictLookup d key).isNone then d ++ [(key, value)] else d

/-- Source `EcommerceAgents.data_extractor`: keyword-match the (lower-cased)
completion text, fetch each recognised dataset unless its key already
exists, fall back to a default triple on the very first iteration when
nothing matched, and to a default pair when the completion client
raised.  Always clears `data_requests` and increments
`iteration_count`. -/
def data_extractor (T : Tools) (resp : Except Unit String) (s : AnalysisState) :
    AnalysisState :=
  let newData :=
    match resp with
    | .error _ =>
        if s.data.isEmpty then
          [("sales_metrics", T.get_sales_metrics 30),
           ("sales_trend", T.get_sales_trend 30)]
        else s.data
    | .ok content =>
        let decision := lowerChars content.data
        let has := fun (w : String) => containsPat w.data decision
        let d := s.data
        let d :=
          if has "sales" || has "revenue" || has "metrics" then
            let days : Int :=
              if has "90" || has "ninety" then 90
              else if has "60" || has "sixty" then 60
              else if has "7" || has "seven" || has "week" then 7
              else 30
            fetchInto d "sales_metrics" (T.get_sales_metrics days)
          else d
        let d :=
          if has "trend" || has "line" || has "time series" || has "daily" then
            let days : Int :=
              if has "90" then 90 else if has "60" then 60
              else if has "7" then 7 else 30
            fetchInto d "sales_trend" (T.get_sales_trend days)
          else d
        let d :=
          if has "product" || has "top" then
            let limit : Int :=
              if has "20" || has "twenty" then 20
              else if has "5" || has "five" then 5
              else 10
            fetchInto d "top_products" (T.get_top_products limit)
          else d
        let d :=
          if has "category" || has "categories" || has "breakdown" then
            fetchInto d "revenue_by_category" T.get_revenue_by_category
          else d
        let d :=
          if has "monthly" || has "month" || has "comparison" then
            let months : Int := if has "12" then 12 else if has "3" then 3 else 6
            fetchInto d "monthly_comparison" (T.get_monthly_comparison months)
          else d
        let d :=
          if has "customer" && has "segment" then
            fetchInto d "customer_segments" T.get_customer_segments
          else d
        let d :=
          if has "lifetime" || has "ltv" || has "top customer" then
            let limit : Int := if has "20" then 20 else if has "5" then 5 else 10
            fetchInto d "customer_lifetime_value" (T.get_customer_lifetime_value limit)
          else d
        if d.isEmpty && s.iteration_count = 0 then
          [("sales_metrics", T.get_sales_metrics 30),
           ("top_products", T.get_top_products 10),
           ("sales_trend", T.get_sales_trend 30)]
        else d
  { s with data := newData, data_requests := [],
           iteration_count := s.iteration_count + 1 }

/-! ### Default chart generation (`_generate_default_charts`)

One fixed descriptor per well-known dataset key, emitted in the fixed
source order, each guarded by presence of the key and truthiness of the
equally-named inner entry of its payload. -/

def chartSalesTrend : Json :=
  .obj (.ofList
    [("type", .str "line"),
     ("title", .str "Sales Trend Over Time"),
     ("data_key", .str "sales_trend"),
     ("x_field", .str "date"),
     ("y_fields", .arr (.ofList [.str "revenue"])),
     ("description", .str "Daily revenue trend")])

def chartTopProducts : Json :=
  .obj (.ofList
    [("type", .str "horizontal_bar"),
     ("title", .str "Top Products by Revenue"),
     ("data_key", .str "top_products"),
     ("x_field", .str "product_name"),
     ("y_fields", .arr (.ofList [.str "total_revenue"])),
     ("description", .str "Product performance comparison")])

def chartRevenueByCategory : Json :=
  .obj (.ofList
    [("type", .str "pie"),
     ("title", .str "Revenue Distribution by Category"),
     ("data_key", .str "revenue_by_category"),
     ("name_field", .str "category"),
     ("value_field", .str "revenue"),
     ("description", .str "Category revenue breakdown")])

def chartMonthlyComparison : Json :=
  .obj (.ofList
    [("type", .str "bar"),
     ("title", .str "Monthly Revenue Comparison"),
     ("data_key", .str "monthly_comparison"),
     ("x_field", .str "month"),
     ("y_fields", .arr (.ofList [.str "revenue"])),
     ("description", .str "Month-over-month revenue performance")])

def chartCustomerSegments : Json :=
  .obj (.ofList
    [("type", .str "horizontal_bar"),
     ("title", .str "Customer Segments Distribution"),
     ("data_key", .str "customer_segments"),
     ("x_field", .str "segment"),
     ("y_fields", .arr (.ofList [.str "customer_count"])),
     ("description", .str "Customer distribution across segments")])

/-- Python `"k" in data and data["k"].get("k")` — the guard on each default
chart. -/
def chartGuard (data : Dict) (key : String) : Bool :=
  match dictLookup data key with
  | none => false
  | some payload => optTruthy (payload.get key)

/-- Source `EcommerceAgents._generate_default_charts`. -/
def generate_default_charts (data : Dict) : List Json :=
  (if chartGuard data "sales_trend" then [chartSalesTrend] else []) ++
  (if chartGuard data "top_products" then [chartTopProducts] else []) ++
  (if chartGuard data "revenue_by_category" then [chartRevenueByCategory] else []) ++
  (if chartGuard data "monthly_comparison" then [chartMonthlyComparison] else []) ++
  (if chartGuard data "customer_segments" then [chartCustomerSegments] else [])

/-! ### Chart extraction (`_extract_charts`)

The Python code slices `content.split("CHARTS:")[1].strip()` from its
first `[` to the position where the running `[`/`]` count first returns
to zero, then feeds the slice to `json.loads`.  `findMatch` is that
counting loop: it returns the consumed slice (ending at the matching
`]`), or `none` when the count never returns to zero — in which case
Python slices the empty string and `json.loads` fails. -/

def findMatch : List Char → Int → Option (List Char)
  | [], _ => none
  | c :: rest, count =>
      if c = '[' then (findMatch rest (count + 1)).map (fun t => c :: t)
      else if c = ']' then
        if count = 1 then some [c]
        else (findMatch rest (count - 1)).map (fun t => c :: t)
      else (findMatch rest count).map (fun t => c :: t)

/-- Python `charts_section[start_idx:end_idx]`: from the first `[` to the
matching `]` (empty when the brackets never balance, exactly as the
Python loop leaves `end_idx = start_idx`). -/
def bracketSlice (sec : List Char) : List Char :=
  (findMatch (sec.dropWhile (fun c => c ≠ '[')) 0).getD []

/-- The `charts_json` string `_extract_charts` hands to `json.loads`:
`none` when there is no `CHARTS:` marker or no `[` after it (those paths
fall through to default chart generation without a parse attempt). -/
def extract_charts_json (content : List Char) : Option (List Char) :=
  if containsPat "CHARTS:".data content then
    let sec := trimChars (partAfter "CHARTS:".data content)
    if sec.contains '[' then some (bracketSlice sec) else none
  else none

/-! A reference JSON serialiser, used to state what a "well-formed JSON
array" is in the bracket-matching theorem. -/

def digitChar (n : Nat) : Char := Char.ofNat (48 + n)

def natChars : Nat → Nat → List Char
  | 0, _ => []
  | fuel + 1, n =>
      if n < 10 then [digitChar n]
      else natChars fuel (n / 10) ++ [digitChar (n % 10)]

def intChars (i : Int) : List Char :=
  if i < 0 then '-' :: natChars i.natAbs i.natAbs
  else natChars (i.natAbs + 1) i.natAbs

mutual

def jrender : Json → List Char
  | .str s => '"' :: s.data ++ ['"']
  | .num n => intChars n
  | .bool b => if b then "true".data else "false".data
  | .null => "null".data
  | .arr vs => '[' :: jrenderList vs ++ [']']
  | .obj fs => '\x7b' :: jrenderFields fs ++ ['\x7d']

def jrenderList : JsonList → List Char
  | .nil => []
  | .cons v rest => jrender v ++ jrenderListT rest

/-- The remaining elements of an array, each with its `", "` separator. -/
def jrenderListT : JsonList → List Char
  | .nil => []
  | .cons v rest => ',' :: ' ' :: (jrender v ++ jrenderListT rest)

def jrenderFields : JsonFields → List Char
  | .nil => []
  | .cons k v rest =>
      '"' :: k.data ++ '"' :: ':' :: ' ' :: jrender v ++ jrenderFieldsT rest

/-- The remaining members of an object, each with its `", "` separator. -/
def jrenderFieldsT : JsonFields → List Char
  | .nil => []
  | .cons k v rest =>
      ',' :: ' ' :: ('"' :: k.data ++ '"' :: ':' :: ' ' :: jrender v ++ jrenderFieldsT rest)

end

/-! "No bracket characters inside string literals" — the hypothesis the
spec itself puts on the bracket matcher. -/

def plainStr (s : String) : Bool :=
  s.data.all (fun c => c ≠ '[' && c ≠ ']')

mutual

def jsonNoBr : Json → Bool
  | .str s => plainStr s
  | .num _ => true
  | .bool _ => true
  | .null => true
  | .arr vs => jsonListNoBr vs
  | .obj fs => jsonFieldsNoBr fs

def jsonListNoBr : JsonList → Bool
  | .nil => true
  | .cons v rest => jsonNoBr v && jsonListNoBr rest

def jsonFieldsNoBr : JsonFields → Bool
  | .nil => true
  | .cons k v rest => plainStr k && jsonNoBr v && jsonFieldsNoBr rest

end

/-! ### `json.loads` on the extracted slice

A fuelled recursive-descent parser for the JSON fragment the slice can
contain (strings without escape sequences, integers, booleans, null,
arrays, objects).  Its output only ever flows into the `charts` field;
no claim depends on its verdict, it is here so `_extract_charts` is an
executable whole. -/

def isJsonWs (c : Char) : Bool :=
  c = ' ' || c = '\n' || c = '\t' || c = '\r'

/-- Consume a string body up to the closing quote. -/
def takeStrChars : List Char → Option (List Char × List Char)
  | [] => none
  | c :: rest =>
      if c = '"' then some ([], rest)
      else (takeStrChars rest).map (fun p => (c :: p.1, p.2))

def takeDigits : List Char → (List Char × List Char)
  | [] => ([], [])
  | c :: rest =>
      if c.isDigit then
        let p := takeDigits rest
        (c :: p.1, p.2)
      else ([], c :: rest)

def digitsToNat (ds : List Char) : Nat :=
  ds.foldl (fun a c => 10 * a + (c.toNat - 48)) 0

mutual

def parseVal : Nat → List Char → Option (Json × List Char)
  | 0, _ => none
  | fuel + 1, cs =>
      match cs.dropWhile isJsonWs with
      | [] => none
      | c :: rest =>
          if c = '"' then
            (takeStrChars rest).map (fun p => (Json.str (String.mk p.1), p.2))
          else if c = '[' then
            match rest.dropWhile isJsonWs with
            | ']' :: r2 => some (Json.arr .nil, r2)
            | _ => (parseItems fuel rest).map (fun p => (Json.arr p.1, p.2))
          else if c = '\x7b' then
            match rest.dropWhile isJsonWs with
            | '\x7d' :: r2 => some (Json.obj .nil, r2)
            | _ => (parseFields fuel rest).map (fun p => (Json.obj p.1, p.2))
          else if c = 't' then
            (dropPre "rue".data rest).map (fun r => (Json.bool true, r))
          else if c = 'f' then
            (dropPre "alse".data rest).map (fun r => (Json.bool false, r))
          else if c = 'n' then
            (dropPre "ull".data rest).map (fun r => (Json.null, r))
          else if c = '-' then
            match takeDigits rest with
            | ([], _) => none
            | (ds, r2) => some (Json.num (-(digitsToNat ds : Int)), r2)
          else if c.isDigit then
            let p := takeDigits (c :: rest)
            some (Json.num (digitsToNat p.1), p.2)
          else none

def parseItems : Nat → List Char → Option (JsonList × List Char)
  | 0, _ => none
  | fuel + 1, cs =>
      match parseVal fuel cs with
      | none => none
      | some (v, rest) =>
          match rest.dropWhile isJsonWs with
          | ',' :: r2 => (parseItems fuel r2).map (fun p => (JsonList.cons v p.1, p.2))
          | ']' :: r2 => some (JsonList.cons v .nil, r2)
          | _ => none

def parseFields : Nat → List Char → Option (JsonFields × List Char)
  | 0, _ => none
  | fuel + 1, cs =>
      match cs.dropWhile isJsonWs with
      | '"' :: rest =>
          match takeStrChars rest with
          | none => none
          | some (k, r1) =>
              match r1.dropWhile isJsonWs with
              | ':' :: r2 =>
                  match parseVal fuel r2 with
                  | none => none
                  | some (v, r3) =>
                      match r3.dropWhile isJsonWs with
                      | ',' :: r4 =>
                          (parseFields fuel r4).map
                            (fun p => (JsonFields.cons (String.mk k) v p.1, p.2))
                      | '\x7d' :: r4 =>
                          some (JsonFields.cons (String.mk k) v .nil, r4)
                      | _ => none
              | _ => none
      | _ => none

end

/-- Python `json.loads(charts_json)` for a slice that must be one JSON array
with nothing but whitespace after it. -/
def parseJsonArr (cs : List Char) : Option (List Json) :=
  match parseVal (cs.length + 1) cs with
  | some (Json.arr items, rest) =>
      if (rest.dropWhile isJsonWs).isEmpty then some items.toList else none
  | _ => none

/-- Source `EcommerceAgents._extract_charts`: slice and parse the `CHARTS:`
JSON array, falling back to default chart generation when the marker,
the `[`, or a clean parse is missing. -/
def extract_charts (content : String) (data : Dict) : List Json :=
  match extract_charts_json content.data with
  | some cj =>
      match parseJsonArr cj with
      | some charts => charts
      | none => generate_default_charts data
  | none => generate_default_charts data

/-! ### The Analyze stage (`analyst`) -/

/-- Python `repr` of a list of strings, as interpolated by the analyst's
exception fallback `f"... {list(state_dict['data'].keys())}"`. -/
def pyStrListRepr (ks : List String) : String :=
  "[" ++ String.intercalate ", " (ks.map (fun k => "\x27" ++ k ++ "\x27")) ++ "]"

def analysisFallback (data : Dict) : String :=
  "Analysis based on available data: " ++ pyStrListRepr (data.map Prod.fst)

/-- The character set of `line.lstrip("- â€¢")` in the source (a
mojibake rendering of `"- •"`). -/
def pyBulletChars : List Char :=
  ['-', ' ', Char.ofNat 0xE2, Char.ofNat 0x20AC, Char.ofNat 0xA2]

/-- One line of the `NEEDED:` section survives when it is non-blank and
does not start with `SUFFICIENT`. -/
def keepNeededLine (line : List Char) : Bool :=
  !(trimChars line).isEmpty && !("SUFFICIENT".data.isPrefixOf line)

/-- Python `line.strip().lstrip("- â€¢").strip()`. -/
def cleanNeededLine (line : List Char) : String :=
  String.mk (trimChars (lstripChars pyBulletChars (trimChars line)))

/-- Source `EcommerceAgents.analyst`: judge sufficiency by literal substring
search, harvest `data_requests` from the `NEEDED:` section (only when
that marker is present — otherwise the field is left untouched), or on
a sufficient verdict extract `analysis` and `charts`.  A completion
failure is absorbed into the fallback update. -/
def analyst (resp : Except Unit String) (s : AnalysisState) : AnalysisState :=
  match resp with
  | .error _ =>
      { s with needs_more_data := false,
               analysis := analysisFallback s.data,
               charts := generate_default_charts s.data }
  | .ok content =>
      let cs := content.data
      if containsPat "SUFFICIENT: NO".data cs then
        let withReqs :=
          if containsPat "NEEDED:".data cs then
            let needed0 := partAfter "NEEDED:".data cs
            let needed :=
              if containsPat "ANALYSIS:".data needed0 then
                partBefore "ANALYSIS:".data needed0
              else needed0
            let reqs := ((splitNl needed).filter keepNeededLine).map cleanNeededLine
            { s with needs_more_data := true, data_requests := reqs }
          else { s with needs_more_data := true }
        { withReqs with
            analysis := "Gathering additional data based on analysis needs...",
            charts := [] }
      else
        { s with
            needs_more_data := false,
            data_requests := [],
            analysis := String.mk
              (if containsPat "ANALYSIS:".data cs then
                 let ap := partAfter "ANALYSIS:".data cs
                 if containsPat "CHARTS:".data ap then
                   trimChars (partBefore "CHARTS:".data ap)
                 else trimChars ap
               else trimChars (replaceAll "SUFFICIENT: YES".data [] cs)),
            charts := extract_charts content s.data }

/-! ### The Recommend stage (`consultant`) -/

def consultant (resp : Except Unit String) (s : AnalysisState) : AnalysisState :=
  match resp with
  | .ok content => { s with recommendations := content }
  | .error _ =>
      { s with recommendations :=
          "Unable to generate recommendations. Please review the analysis." }

/-! ### The compiled workflow

`_build_graph` wires: entry → data_extractor → analyst →
(`should_continue`) → data_extractor | consultant → END.  The two
in-loop completion responses are drawn from an oracle indexed by the
iteration count at the moment of the call, so one `Oracles` value is
one arbitrary sequence of completion-client behaviours. -/

structure Oracles where
  fetchResp : Int → Except Unit String
  analyzeResp : Int → Except Unit String
  recResp : Except Unit String

theorem data_extractor_iteration_count (T : Tools) (r : Except Unit String)
    (s : AnalysisState) :
    (data_extractor T r s).iteration_count = s.iteration_count + 1 := rfl

theorem analyst_iteration_count (r : Except Unit String) (s : AnalysisState) :
    (analyst r s).iteration_count = s.iteration_count := by
  cases r with
  | error e => rfl
  | ok content =>
      simp only [analyst]
      split
      · split <;> rfl
      · rfl

theorem should_continue_fetch_bound {s : AnalysisState}
    (h : should_continue s = "data_extractor") : s.iteration_count ≤ 3 := by
  by_contra hc
  have h3 : s.iteration_count > 3 := by omega
  simp only [should_continue, if_pos h3] at h
  exact absurd h (by decide)

/-- One Fetch → Analyze cycle of the loop. -/
def cycleStep (T : Tools) (o : Oracles) (s : AnalysisState) : AnalysisState :=
  analyst (o.analyzeResp (data_extractor T (o.fetchResp s.iteration_count) s).iteration_count)
    (data_extractor T (o.fetchResp s.iteration_count) s)

theorem cycleStep_iteration_count (T : Tools) (o : Oracles) (s : AnalysisState) :
    (cycleStep T o s).iteration_count = s.iteration_count + 1 := by
  unfold cycleStep
  rw [analyst_iteration_count, data_extractor_iteration_count]

/-- The Fetch/Analyze loop followed by Recommend, starting from an
arbitrary state.  Total: the recursion is well-founded because each
cycle increments `iteration_count` and `should_continue` refuses to
loop once the count exceeds 3. -/
def runFrom (T : Tools) (o : Oracles) (s : AnalysisState) : AnalysisState :=
  if h : should_continue (cycleStep T o s) = "data_extractor" then
    runFrom T o (cycleStep T o s)
  else consultant o.recResp (cycleStep T o s)
termination_by (4 - s.iteration_count).toNat
decreasing_by
  have hb := should_continue_fetch_bound h
  have hc := cycleStep_iteration_count T o s
  omega

/-- Source `EcommerceAgents.analyze`: run the graph from the initial state. -/
def runWorkflow (T : Tools) (o : Oracles) (query : String) : AnalysisState :=
  runFrom T o (initialState query)

/-- A trivial adapter instance used to instantiate theorems at concrete
inputs. -/
def constNullTools : Tools :=
  { get_sales_metrics := fun _ => .null,
    get_top_products := fun _ => .null,
    get_customer_segments := .null,
    get_sales_trend := fun _ => .null,
    get_revenue_by_category := .null,
    get_monthly_comparison := fun _ => .null,
    get_customer_lifetime_value := fun _ => .null }

/-! ## Theorems -/

/-- C2. For every `AnalysisState`, `should_continue` returns
`"consultant"` (Recommend) whenever `iteration_count > 3`, regardless of
`needs_more_data` and `data_requests`; otherwise it returns
`"data_extractor"` (Fetch) exactly when `needs_more_data` is true and
`data_requests` is non-empty, and `"consultant"` in all remaining
cases.  In particular the forced-termination scenario
(`iteration_count = 4`, `needs_more_data = true`,
`data_requests = ["x"]`) yields `"consultant"`. -/
theorem should_continue_cases :
    (∀ s : AnalysisState,
      should_continue s =
        (if s.iteration_count > 3 then "consultant"
         else if s.needs_more_data = true ∧ s.data_requests ≠ [] then "data_extractor"
         else "consultant")) ∧
    should_continue
      { iteration_count := 4, needs_more_data := true, data_requests := ["x"] } =
      "consultant" := by
  refine ⟨fun s => ?_, by decide⟩
  unfold should_continue
  rcases lt_or_le 3 s.iteration_count with h | h
  · rw [if_pos h, if_pos h]
  · rw [if_neg (not_lt.2 h), if_neg (not_lt.2 h)]
    by_cases hn : s.needs_more_data <;> by_cases hr : s.data_requests = [] <;>
      simp [hn, hr, List.length_pos, List.isEmpty_iff]

/-- C4. If the completion client fails during Fetch then: with empty
incoming `data` the resulting `data` is exactly the pair
`sales_metrics`, `sales_trend` (in that order); with non-empty incoming
`data` it is left unchanged.  The failure is absorbed inside the stage:
`data_extractor` is a total function of the failing response. -/
theorem data_extractor_failure_default (T : Tools) (s : AnalysisState) :
    (data_extractor T (.error ()) s).data =
      (if s.data.isEmpty then
        [("sales_metrics", T.get_sales_metrics 30),
         ("sales_trend", T.get_sales_trend 30)]
       else s.data) := by
  rfl

/-- The sufficient-verdict branch of `analyst`, characterised. -/
theorem analyst_sufficient_eq (content : String) (s : AnalysisState)
    (h : containsPat "SUFFICIENT: NO".data content.data = false) :
    analyst (.ok content) s =
      { s with needs_more_data := false, data_requests := [],
               analysis := String.mk
                 (if containsPat "ANALYSIS:".data content.data = true then
                    if containsPat "CHARTS:".data
                        (partAfter "ANALYSIS:".data content.data) = true then
                      trimChars (partBefore "CHARTS:".data
                        (partAfter "ANALYSIS:".data content.data))
                    else trimChars (partAfter "ANALYSIS:".data content.data)
                  else trimChars (replaceAll "SUFFICIENT: YES".data [] content.data)),
               charts := extract_charts content s.data } := by
  simp [analyst, h]

/-- The insufficient-verdict branch of `analyst` when a `NEEDED:`
section is absent: `data_requests` is left untouched. -/
theorem analyst_insufficient_no_needed_eq (content : String) (s : AnalysisState)
    (h1 : containsPat "SUFFICIENT: NO".data content.data = true)
    (h2 : containsPat "NEEDED:".data content.data = false) :
    analyst (.ok content) s =
      { s with needs_more_data := true,
               analysis := "Gathering additional data based on analysis needs...",
               charts := [] } := by
  simp [analyst, h1, h2]

/-- The insufficient-verdict branch always clears `charts`. -/
theorem analyst_insufficient_charts (content : String) (s : AnalysisState)
    (h1 : containsPat "SUFFICIENT: NO".data content.data = true) :
    (analyst (.ok content) s).charts = [] := by
  simp [analyst, h1]

/-- C5. If the Analyze completion text does not contain the literal
substring `"SUFFICIENT: NO"`, the stage sets `needs_more_data` to false
and `data_requests` to the empty list. -/
theorem analyst_sufficient_resets (content : String) (s : AnalysisState)
    (h : containsPat "SUFFICIENT: NO".data content.data = false) :
    (analyst (.ok content) s).needs_more_data = false ∧
    (analyst (.ok content) s).data_requests = [] := by
  rw [analyst_sufficient_eq content s h]
  exact ⟨rfl, rfl⟩

theorem analyst_sufficient_resets_witness :
    (analyst (.ok "SUFFICIENT: YES\nANALYSIS: fine") (initialState "q")).needs_more_data
      = false ∧
    (analyst (.ok "SUFFICIENT: YES\nANALYSIS: fine") (initialState "q")).data_requests
      = [] :=
  analyst_sufficient_resets "SUFFICIENT: YES\nANALYSIS: fine" (initialState "q")
    (by decide)

/-- C9. If the completion client fails during Analyze, the stage
absorbs the failure (it is a total function of the failing response):
`needs_more_data` becomes false, `analysis` becomes the fallback string
listing the available top-level dataset keys, `charts` becomes the
default-chart fallback on the current data, and `should_continue` then
routes to `"consultant"` (Recommend), never back to Fetch. -/
theorem analyst_failure_fallback (s : AnalysisState) :
    (analyst (.error ()) s).needs_more_data = false ∧
    (analyst (.error ()) s).analysis = analysisFallback s.data ∧
    (analyst (.error ()) s).charts = generate_default_charts s.data ∧
    should_continue (analyst (.error ()) s) = "consultant" := by
  refine ⟨rfl, rfl, rfl, ?_⟩
  unfold should_continue analyst
  split
  · rfl
  · rfl

/-- C10. An Analyze response that contains `"SUFFICIENT: NO"` but no
`"NEEDED:"` marker sets `needs_more_data` to true while leaving
`data_requests` untouched; because the preceding Fetch always resets
`data_requests` to `[]`, the combination leaves `data_requests = []`
and `should_continue` routes to `"consultant"` — the loop never
re-enters Fetch on an insufficiency verdict that names no data needs. -/
theorem analyst_insufficient_no_needed (T : Tools) (r : Except Unit String)
    (s0 : AnalysisState) (content : String)
    (h1 : containsPat "SUFFICIENT: NO".data content.data = true)
    (h2 : containsPat "NEEDED:".data content.data = false) :
    (analyst (.ok content) (data_extractor T r s0)).needs_more_data = true ∧
    (analyst (.ok content) (data_extractor T r s0)).data_requests = [] ∧
    should_continue (analyst (.ok content) (data_extractor T r s0)) =
      "consultant" := by
  have hform := analyst_insufficient_no_needed_eq content (data_extractor T r s0) h1 h2
  rw [hform]
  refine ⟨rfl, rfl, ?_⟩
  unfold should_continue
  split
  · rfl
  · simp [show (data_extractor T r s0).data_requests = [] from rfl]

theorem analyst_insufficient_no_needed_witness :
    (analyst (.ok "SUFFICIENT: NO")
      (data_extractor constNullTools (.ok "x") (initialState "q"))).needs_more_data
        = true ∧
    (analyst (.ok "SUFFICIENT: NO")
      (data_extractor constNullTools (.ok "x") (initialState "q"))).data_requests
        = [] ∧
    should_continue (analyst (.ok "SUFFICIENT: NO")
      (data_extractor constNullTools (.ok "x") (initialState "q"))) = "consultant" :=
  analyst_insufficient_no_needed constNullTools (.ok "x") (initialState "q")
    "SUFFICIENT: NO" (by decide) (by decide)

/-! ### C3: the Fetch stage never overwrites an existing `data` key -/

theorem dictLookup_append_left {d : Dict} {k : String} {v : Json}
    (h : dictLookup d k = some v) (l : Dict) :
    dictLookup (d ++ l) k = some v := by
  induction d with
  | nil => simp [dictLookup] at h
  | cons e rest ih =>
      obtain ⟨k', v'⟩ := e
      by_cases he : k' = k
      · simp_all [dictLookup]
      · simp only [dictLookup, if_neg he] at h
        simpa [dictLookup, if_neg he] using ih h

theorem dictLookup_fetchInto {d : Dict} {k : String} {v : Json}
    (h : dictLookup d k = some v) (key : String) (val : Json) :
    dictLookup (fetchInto d key val) k = some v := by
  unfold fetchInto
  split
  · exact dictLookup_append_left h _
  · exact h

/-- Lookup is preserved through one conditional fetch block. -/
theorem dictLookup_fetch_block {d : Dict} {k : String} {v : Json}
    (h : dictLookup d k = some v) (c : Prop) [Decidable c] (key : String)
    (val : Json) :
    dictLookup (if c then fetchInto d key val else d) k = some v := by
  split
  · exact dictLookup_fetchInto h key val
  · exact h

/-- Any populated dictionary survives the `not existing_data` guarded
replacement. -/
theorem dictLookup_default_block {d : Dict} {k : String} {v : Json}
    (h : dictLookup d k = some v) (c : Prop) [Decidable c] (l : Dict) :
    dictLookup (if d.isEmpty && c then l else d) k = some v := by
  split
  next hc =>
    rw [Bool.and_eq_true] at hc
    rcases hc with ⟨he, -⟩
    rw [List.isEmpty_iff] at he
    subst he
    simp [dictLookup] at h
  next => exact h

/-- C3. The Fetch stage is idempotent per dataset key: for every
state and every completion-client response, any existing key/value
entry of `data` is still found after `data_extractor` runs (keys are
only added, never removed or replaced); in particular this holds across
two consecutive Fetch visits. -/
theorem data_extractor_monotone (T : Tools) (r r2 : Except Unit String)
    (s : AnalysisState) (k : String) (v : Json)
    (h : dictLookup s.data k = some v) :
    dictLookup (data_extractor T r s).data k = some v ∧
    dictLookup (data_extractor T r2 (data_extractor T r s)).data k = some v := by
  suffices hstep : ∀ (r' : Except Unit String) (s' : AnalysisState),
      dictLookup s'.data k = some v → dictLookup (data_extractor T r' s').data k = some v by
    have h1 := hstep r s h
    exact ⟨h1, hstep r2 _ h1⟩
  intro r' s' h'
  cases r' with
  | error e =>
      simp only [data_extractor]
      by_cases he : s'.data.isEmpty
      · rw [List.isEmpty_iff] at he
        rw [he] at h'
        simp [dictLookup] at h'
      · simp [he, h']
  | ok content =>
      simp only [data_extractor]
      apply dictLookup_default_block
      apply dictLookup_fetch_block
      apply dictLookup_fetch_block
      apply dictLookup_fetch_block
      apply dictLookup_fetch_block
      apply dictLookup_fetch_block
      apply dictLookup_fetch_block
      apply dictLookup_fetch_block
      exact h'

theorem data_extractor_monotone_witness :
    dictLookup [("sales_trend", Json.null)] "sales_trend" = some Json.null ∧
    (dictLookup (data_extractor constNullTools (.ok "fetch the sales trend")
        { data := [("sales_trend", Json.null)] }).data "sales_trend" = some Json.null ∧
     dictLookup (data_extractor constNullTools (.ok "fetch the sales trend")
        (data_extractor constNullTools (.ok "fetch the sales trend")
          { data := [("sales_trend", Json.null)] })).data "sales_trend" =
       some Json.null) :=
  ⟨by decide,
   data_extractor_monotone constNullTools (.ok "fetch the sales trend")
     (.ok "fetch the sales trend") { data := [("sales_trend", Json.null)] }
     "sales_trend" Json.null (by decide)⟩

/-! ### C8: determinism and order of default chart generation -/

theorem chartGuard_true {data : Dict} {key : String} {p a : Json} {l : JsonList}
    (h1 : dictLookup data key = some p)
    (h2 : p.get key = some (.arr (.cons a l))) :
    chartGuard data key = true := by
  simp [chartGuard, h1, h2, optTruthy, Json.truthy]

theorem chartGuard_none {data : Dict} {key : String}
    (h : dictLookup data key = none) : chartGuard data key = false := by
  simp [chartGuard, h]

theorem chartGuard_empty_inner {data : Dict} {key : String} {p : Json}
    (h1 : dictLookup data key = some p)
    (h2 : p.get key = some (.arr .nil)) :
    chartGuard data key = false := by
  simp [chartGuard, h1, h2, optTruthy, Json.truthy]

/-- C8. Default chart generation is a deterministic function of
`data` with the fixed emission order line, horizontal_bar, pie: when
`data` holds `sales_trend`, `top_products` and `revenue_by_category`,
each with a non-empty inner list under the same name, and neither
`monthly_comparison` nor `customer_segments`, the output is exactly the
three hardcoded descriptors in that order.  A dataset whose inner list
is empty produces no chart, and empty `data` produces zero charts. -/
theorem default_charts_deterministic (data : Dict) (st tp rc a b c : Json)
    (la lb lc : JsonList)
    (hst : dictLookup data "sales_trend" = some st)
    (hst2 : st.get "sales_trend" = some (.arr (.cons a la)))
    (htp : dictLookup data "top_products" = some tp)
    (htp2 : tp.get "top_products" = some (.arr (.cons b lb)))
    (hrc : dictLookup data "revenue_by_category" = some rc)
    (hrc2 : rc.get "revenue_by_category" = some (.arr (.cons c lc)))
    (hmc : dictLookup data "monthly_comparison" = none)
    (hcs : dictLookup data "customer_segments" = none) :
    generate_default_charts data =
      [chartSalesTrend, chartTopProducts, chartRevenueByCategory] ∧
    (∀ p : Json, p.get "sales_trend" = some (.arr .nil) →
      generate_default_charts [("sales_trend", p)] = []) ∧
    generate_default_charts [] = [] := by
  refine ⟨?_, ?_, rfl⟩
  · unfold generate_default_charts
    rw [chartGuard_true hst hst2, chartGuard_true htp htp2, chartGuard_true hrc hrc2,
        chartGuard_none hmc, chartGuard_none hcs]
    rfl
  · intro p hp
    have h1 : dictLookup [("sales_trend", p)] "sales_trend" = some p := by
      simp [dictLookup]
    unfold generate_default_charts
    rw [chartGuard_empty_inner h1 hp]
    have hother : ∀ key, key ≠ "sales_trend" →
        dictLookup [("sales_trend", p)] key = none := by
      intro key hk
      simp only [dictLookup]
      rw [if_neg (fun h => hk h.symm)]
    rw [chartGuard_none (hother "top_products" (by decide)),
        chartGuard_none (hother "revenue_by_category" (by decide)),
        chartGuard_none (hother "monthly_comparison" (by decide)),
        chartGuard_none (hother "customer_segments" (by decide))]
    rfl

def c8Payload (key : String) : Json :=
  .obj (.ofList [(key, .arr (.ofList [.null]))])

def c8Data : Dict :=
  [("sales_trend", c8Payload "sales_trend"),
   ("top_products", c8Payload "top_products"),
   ("revenue_by_category", c8Payload "revenue_by_category")]

theorem default_charts_deterministic_witness :
    generate_default_charts c8Data =
      [chartSalesTrend, chartTopProducts, chartRevenueByCategory] ∧
    (∀ p : Json, p.get "sales_trend" = some (.arr .nil) →
      generate_default_charts [("sales_trend", p)] = []) ∧
    generate_default_charts [] = [] :=
  default_charts_deterministic c8Data
    (c8Payload "sales_trend") (c8Payload "top_products")
    (c8Payload "revenue_by_category") .null .null .null .nil .nil .nil
    (by decide) (by decide) (by decide) (by decide) (by decide) (by decide)
    (by decide) (by decide)

/-! ### C1: termination of the Fetch/Analyze loop within the cap -/

theorem consultant_iteration_count (r : Except Unit String) (s : AnalysisState) :
    (consultant r s).iteration_count = s.iteration_count := by
  cases r <;> rfl

theorem consultant_charts (r : Except Unit String) (s : AnalysisState) :
    (consultant r s).charts = s.charts := by
  cases r <;> rfl

/-- Every run of the loop ends in the Recommend stage, and when it is
entered with at most 3 completed iterations (the only way the workflow
ever enters it) the state handed to Recommend shows at most 4. -/
theorem runFrom_spec (T : Tools) (o : Oracles) (s : AnalysisState)
    (hs : s.iteration_count ≤ 3) :
    ∃ s2, runFrom T o s = consultant o.recResp s2 ∧ s2.iteration_count ≤ 4 := by
  by_cases h : should_continue (cycleStep T o s) = "data_extractor"
  · rw [runFrom, dif_pos h]
    have hb := should_continue_fetch_bound h
    obtain ⟨s2, he, hle⟩ := runFrom_spec T o (cycleStep T o s) hb
    exact ⟨s2, he, hle⟩
  · rw [runFrom, dif_neg h]
    refine ⟨cycleStep T o s, rfl, ?_⟩
    rw [cycleStep_iteration_count]
    omega
termination_by (4 - s.iteration_count).toNat
decreasing_by
  have hb := should_continue_fetch_bound h
  have hc := cycleStep_iteration_count T o s
  omega

/-- C1. For every adapter, every sequence of completion-client
responses and every query, the workflow terminates — `runWorkflow` is a
total function whose result was produced by the terminal Recommend
stage — and the final `iteration_count` is at most 4.  The proof of
termination rests solely on the iteration cap: the recursion in
`runFrom` is well-founded by the measure `(4 - iteration_count).toNat`,
which decreases because `should_continue` refuses to revisit Fetch once
the count exceeds 3. -/
theorem workflow_terminates_within_cap (T : Tools) (o : Oracles) (q : String) :
    (∃ s2, runWorkflow T o q = consultant o.recResp s2) ∧
    (runWorkflow T o q).iteration_count ≤ 4 := by
  have h0 : (initialState q).iteration_count ≤ 3 := by
    rw [show (initialState q).iteration_count = 0 from rfl]
    decide
  obtain ⟨s2, he, hle⟩ := runFrom_spec T o (initialState q) h0
  refine ⟨⟨s2, he⟩, ?_⟩
  show (runFrom T o (initialState q)).iteration_count ≤ 4
  rw [he, consultant_iteration_count]
  exact hle

/-! ### C6: when can `charts` be non-empty?

The spec's invariant — `charts` is only non-empty after a *successful*
Analyze that judged data sufficient — is refuted by the analyst's
exception handler, which fills `charts` from the default-chart fallback
even though the completion client failed. -/

/-- An adapter whose `sales_trend` payload carries a non-empty inner
list, as the real Snowflake adapter produces. -/
def cexTools : Tools :=
  { constNullTools with
      get_sales_trend := fun _ =>
        .obj (.ofList [("sales_trend", .arr (.ofList [.null]))]) }

/-- Completion client that fails on both in-loop calls. -/
def cexOracles : Oracles :=
  { fetchResp := fun _ => .error (),
    analyzeResp := fun _ => .error (),
    recResp := .ok "recs" }

/-- Counterexample to C6 as stated. In the run driven by
`cexOracles` the one and only Analyze stage fails (`analyzeResp` is
`.error` at every index, in particular at the iteration count 1 where
it is consulted), yet the workflow's final state carries a non-empty
`charts` — the analyst's exception handler populated it through the
default-chart fallback. -/
theorem charts_nonempty_after_failed_analyze :
    cexOracles.analyzeResp 1 = .error () ∧
    (runWorkflow cexTools cexOracles "q").charts = [chartSalesTrend] := by
  refine ⟨rfl, ?_⟩
  show (runFrom cexTools cexOracles (initialState "q")).charts = _
  rw [runFrom, dif_neg (by decide)]
  decide

/-- The final state's `charts`, when non-empty, rules out an
ok-but-insufficient verdict in the last Analyze stage. -/
theorem runFrom_charts_spec (T : Tools) (o : Oracles) (s : AnalysisState) :
    ∀ content, (runFrom T o s).charts ≠ [] →
      o.analyzeResp (runFrom T o s).iteration_count = .ok content →
      containsPat "SUFFICIENT: NO".data content.data = false := by
  by_cases h : should_continue (cycleStep T o s) = "data_extractor"
  · rw [runFrom, dif_pos h]
    exact runFrom_charts_spec T o (cycleStep T o s)
  · rw [runFrom, dif_neg h]
    intro content hne hok
    rw [consultant_charts] at hne
    rw [consultant_iteration_count] at hok
    have hcyc : cycleStep T o s =
        analyst
          (o.analyzeResp
            (data_extractor T (o.fetchResp s.iteration_count) s).iteration_count)
          (data_extractor T (o.fetchResp s.iteration_count) s) := rfl
    have hcnt : (cycleStep T o s).iteration_count =
        (data_extractor T (o.fetchResp s.iteration_count) s).iteration_count := by
      rw [hcyc, analyst_iteration_count]
    rw [hcnt] at hok
    by_contra hb
    have hb' : containsPat "SUFFICIENT: NO".data content.data = true := by
      cases hcp : containsPat "SUFFICIENT: NO".data content.data
      · exact absurd hcp hb
      · rfl
    have hempty : (cycleStep T o s).charts = [] := by
      rw [hcyc, hok]
      exact analyst_insufficient_charts content _ hb'
    exact hne hempty
termination_by (4 - s.iteration_count).toNat
decreasing_by
  have hb := should_continue_fetch_bound h
  have hc := cycleStep_iteration_count T o s
  omega

/-- C6, amended. `charts` is non-empty only if the most recent
Analyze stage either judged the held data sufficient or *failed* (in
which case the default-chart fallback may populate it); after an
insufficient judgment `charts` is empty, and it is empty before any
Analyze stage (initially, and Fetch never touches it). -/
theorem charts_empty_unless_sufficient_or_failed :
    (∀ (T : Tools) (o : Oracles) (s : AnalysisState) (content : String),
        (runFrom T o s).charts ≠ [] →
        o.analyzeResp (runFrom T o s).iteration_count = .ok content →
        containsPat "SUFFICIENT: NO".data content.data = false) ∧
    (∀ (content : String) (s : AnalysisState),
        containsPat "SUFFICIENT: NO".data content.data = true →
        (analyst (.ok content) s).charts = []) ∧
    (∀ q, (initialState q).charts = []) ∧
    (∀ (T : Tools) (r : Except Unit String) (s : AnalysisState),
        (data_extractor T r s).charts = s.charts) :=
  ⟨fun T o s content => runFrom_charts_spec T o s content,
   fun content s h => analyst_insufficient_charts content s h,
   fun _ => rfl,
   fun _ _ _ => rfl⟩

/-- Completion client that fails during Fetch and then judges the data
sufficient. -/
def c6OraclesOk : Oracles :=
  { fetchResp := fun _ => .error (),
    analyzeResp := fun _ => .ok "SUFFICIENT: YES",
    recResp := .ok "recs" }

theorem charts_empty_unless_sufficient_or_failed_witness :
    containsPat "SUFFICIENT: NO".data "SUFFICIENT: YES".data = false ∧
    (analyst (.ok "SUFFICIENT: NO") (initialState "w")).charts = [] :=
  ⟨charts_empty_unless_sufficient_or_failed.1 cexTools c6OraclesOk
     (initialState "q") "SUFFICIENT: YES"
     (by rw [runFrom, dif_neg (by decide)]; decide)
     rfl,
   charts_empty_unless_sufficient_or_failed.2.1 "SUFFICIENT: NO"
     (initialState "w") (by decide)⟩

/-! ### C7: depth-counted bracket matching finds the true end of the
`CHARTS:` JSON array

`Neutral A` says the scanning loop passes over the segment `A` without
ever closing the array it is inside: at any depth `d ≥ 1`, consuming
`A` neither fires the `count = 0` exit nor changes the depth. -/

def Neutral (A : List Char) : Prop :=
  ∀ d : Int, 1 ≤ d → ∀ l,
    findMatch (A ++ l) d = (findMatch l d).map (fun t => A ++ t)

theorem findMatch_plain {c : Char} (h1 : c ≠ '[') (h2 : c ≠ ']')
    (l : List Char) (d : Int) :
    findMatch (c :: l) d = (findMatch l d).map (fun t => c :: t) := by
  simp only [findMatch, if_neg h1, if_neg h2]

theorem neutral_nil : Neutral [] := by
  intro d _ l
  cases h : findMatch l d <;> simp [h]

theorem neutral_plain {cs : List Char} (h : ∀ c ∈ cs, c ≠ '[' ∧ c ≠ ']') :
    Neutral cs := by
  induction cs with
  | nil => exact neutral_nil
  | cons c cs ih =>
      intro d hd l
      have hc := h c (List.mem_cons_self c cs)
      have hcs : ∀ x ∈ cs, x ≠ '[' ∧ x ≠ ']' :=
        fun x hx => h x (List.mem_cons_of_mem c hx)
      rw [List.cons_append, findMatch_plain hc.1 hc.2, ih hcs d hd l]
      cases hm : findMatch l d <;> simp [hm]

theorem neutral_append {A B : List Char} (hA : Neutral A) (hB : Neutral B) :
    Neutral (A ++ B) := by
  intro d hd l
  rw [List.append_assoc, hA d hd, hB d hd]
  cases hm : findMatch l d <;> simp [hm]

theorem neutral_cons (c : Char) {A : List Char} (h1 : c ≠ '[') (h2 : c ≠ ']')
    (hA : Neutral A) : Neutral (c :: A) := by
  intro d hd l
  rw [List.cons_append, findMatch_plain h1 h2, hA d hd]
  cases hm : findMatch l d <;> simp [hm]

/-- A balanced bracket pair around a neutral segment is neutral: the
`[` raises the depth to `d + 1 ≥ 2`, so the matching `]` lowers it back
to `d` instead of ending the scan. -/
theorem neutral_wrap {A : List Char} (hA : Neutral A) :
    Neutral ('[' :: A ++ [']']) := by
  intro d hd l
  have h1 : ('[' :: A ++ [']']) ++ l = '[' :: (A ++ (']' :: l)) := by
    simp
  rw [h1]
  have h2 : findMatch ('[' :: (A ++ (']' :: l))) d =
      (findMatch (A ++ (']' :: l)) (d + 1)).map (fun t => '[' :: t) := by
    simp [findMatch]
  rw [h2, hA (d + 1) (by omega)]
  have h3 : findMatch (']' :: l) (d + 1) =
      (findMatch l d).map (fun t => ']' :: t) := by
    have hne : ¬((']' : Char) = '[') := by decide
    have hd1 : ¬(d + 1 = 1) := by omega
    simp only [findMatch]
    rw [if_pos trivial, if_neg hd1, show d + 1 - 1 = d by omega, if_neg hne]
  rw [h3]
  cases hm : findMatch l d <;> simp [hm]

theorem digitChar_not_bracket {n : Nat} (h : n < 10) :
    digitChar n ≠ '[' ∧ digitChar n ≠ ']' := by
  interval_cases n <;> exact ⟨by decide, by decide⟩

theorem natChars_no_brackets (fuel n : Nat) :
    ∀ c ∈ natChars fuel n, c ≠ '[' ∧ c ≠ ']' := by
  induction fuel generalizing n with
  | zero => intro c hc; simp [natChars] at hc
  | succ fuel ih =>
      intro c hc
      unfold natChars at hc
      split at hc
      next h =>
        rw [List.mem_singleton] at hc
        subst hc
        exact digitChar_not_bracket h
      next h =>
        rw [List.mem_append] at hc
        rcases hc with hc | hc
        · exact ih _ c hc
        · rw [List.mem_singleton] at hc
          subst hc
          exact digitChar_not_bracket (Nat.mod_lt _ (by omega))

theorem intChars_no_brackets (i : Int) :
    ∀ c ∈ intChars i, c ≠ '[' ∧ c ≠ ']' := by
  intro c hc
  unfold intChars at hc
  split at hc
  · rcases List.mem_cons.1 hc with hc | hc
    · subst hc; exact ⟨by decide, by decide⟩
    · exact natChars_no_brackets _ _ c hc
  · exact natChars_no_brackets _ _ c hc

theorem plainStr_chars {s : String} (h : plainStr s = true) :
    ∀ c ∈ s.data, c ≠ '[' ∧ c ≠ ']' := by
  intro c hc
  have := List.all_eq_true.1 h c hc
  simp only [Bool.and_eq_true, decide_eq_true_eq] at this
  exact this

mutual

theorem jrender_neutral (v : Json) (hv : jsonNoBr v = true) :
    Neutral (jrender v) := by
  cases v with
  | str s =>
      rw [jsonNoBr] at hv
      refine neutral_plain ?_
      intro c hc
      rw [show jrender (.str s) = '"' :: (s.data ++ ['"']) from rfl] at hc
      rcases List.mem_cons.1 hc with hc | hc
      · subst hc; exact ⟨by decide, by decide⟩
      · rcases List.mem_append.1 hc with hc | hc
        · exact plainStr_chars hv c hc
        · rw [List.mem_singleton] at hc
          subst hc; exact ⟨by decide, by decide⟩
  | num n => exact neutral_plain (intChars_no_brackets n)
  | bool b =>
      cases b
      · exact neutral_plain (by decide)
      · exact neutral_plain (by decide)
  | null => exact neutral_plain (by decide)
  | arr vs =>
      rw [jsonNoBr] at hv
      exact neutral_wrap (jrenderList_neutral vs hv)
  | obj fs =>
      rw [jsonNoBr] at hv
      rw [show jrender (.obj fs) = '\x7b' :: (jrenderFields fs ++ ['\x7d']) from rfl]
      exact neutral_cons '\x7b' (by decide) (by decide)
        (neutral_append (jrenderFields_neutral fs hv)
          (neutral_plain (by decide)))

theorem jrenderList_neutral (vs : JsonList) (hvs : jsonListNoBr vs = true) :
    Neutral (jrenderList vs) := by
  cases vs with
  | nil => exact neutral_nil
  | cons v rest =>
      rw [jsonListNoBr, Bool.and_eq_true] at hvs
      rw [show jrenderList (.cons v rest) = jrender v ++ jrenderListT rest from rfl]
      exact neutral_append (jrender_neutral v hvs.1)
        (jrenderListT_neutral rest hvs.2)

theorem jrenderListT_neutral (vs : JsonList) (hvs : jsonListNoBr vs = true) :
    Neutral (jrenderListT vs) := by
  cases vs with
  | nil => exact neutral_nil
  | cons v rest =>
      rw [jsonListNoBr, Bool.and_eq_true] at hvs
      rw [show jrenderListT (.cons v rest) =
          ',' :: (' ' :: (jrender v ++ jrenderListT rest)) from rfl]
      exact neutral_cons ',' (by decide) (by decide)
        (neutral_cons ' ' (by decide) (by decide)
          (neutral_append (jrender_neutral v hvs.1)
            (jrenderListT_neutral rest hvs.2)))

theorem jrenderFields_neutral (fs : JsonFields) (hfs : jsonFieldsNoBr fs = true) :
    Neutral (jrenderFields fs) := by
  cases fs with
  | nil => exact neutral_nil
  | cons k v rest =>
      rw [jsonFieldsNoBr, Bool.and_eq_true, Bool.and_eq_true] at hfs
      rw [show jrenderFields (.cons k v rest) =
          (('"' :: k.data) ++ ('"' :: ':' :: ' ' :: jrender v)) ++
            jrenderFieldsT rest from rfl]
      exact neutral_append
        (neutral_append
          (neutral_cons '"' (by decide) (by decide)
            (neutral_plain (plainStr_chars hfs.1.1)))
          (neutral_cons '"' (by decide) (by decide)
            (neutral_cons ':' (by decide) (by decide)
              (neutral_cons ' ' (by decide) (by decide)
                (jrender_neutral v hfs.1.2)))))
        (jrenderFieldsT_neutral rest hfs.2)

theorem jrenderFieldsT_neutral (fs : JsonFields) (hfs : jsonFieldsNoBr fs = true) :
    Neutral (jrenderFieldsT fs) := by
  cases fs with
  | nil => exact neutral_nil
  | cons k v rest =>
      rw [jsonFieldsNoBr, Bool.and_eq_true, Bool.and_eq_true] at hfs
      rw [show jrenderFieldsT (.cons k v rest) =
          ',' :: (' ' :: ((('"' :: k.data) ++ ('"' :: ':' :: ' ' :: jrender v)) ++
            jrenderFieldsT rest)) from rfl]
      exact neutral_cons ',' (by decide) (by decide)
        (neutral_cons ' ' (by decide) (by decide)
          (neutral_append
            (neutral_append
              (neutral_cons '"' (by decide) (by decide)
                (neutral_plain (plainStr_chars hfs.1.1)))
              (neutral_cons '"' (by decide) (by decide)
                (neutral_cons ':' (by decide) (by decide)
                  (neutral_cons ' ' (by decide) (by decide)
                    (jrender_neutral v hfs.1.2)))))
            (jrenderFieldsT_neutral rest hfs.2)))

end

theorem dropWhile_until_lb {w : List Char} (hw : '[' ∉ w) (t : List Char) :
    (w ++ '[' :: t).dropWhile (fun c => c ≠ '[') = '[' :: t := by
  induction w with
  | nil => simp [List.dropWhile]
  | cons c w ih =>
      have hc : c ≠ '[' := fun h => hw (h ▸ List.mem_cons_self c w)
      have hw' : '[' ∉ w := fun h => hw (List.mem_cons_of_mem c h)
      simp only [List.cons_append, List.dropWhile, decide_eq_true hc]
      exact ih hw'

/-- C7. For every Analyze response whose `CHARTS:` section consists
of (possibly junk without a `[`, then) a well-formed JSON array — with
arbitrarily nested arrays and objects and no bracket characters inside
string literals — followed by arbitrary trailing text, the
depth-counted extraction selects exactly the serialised array: the
slice runs from the first `[` after the marker to the position where
the bracket depth first returns to zero, which is the array's true end.
Consequently `json.loads` on the slice sees exactly the array's own
serialisation, so it parses to the same structure as a direct parse of
the array. -/
theorem extract_charts_bracket_matching
    (content : String) (sec w rest : List Char) (vs : JsonList)
    (hmark : containsPat "CHARTS:".data content.data = true)
    (hsec : trimChars (partAfter "CHARTS:".data content.data) = sec)
    (hshape : sec = w ++ jrender (Json.arr vs) ++ rest)
    (hw : '[' ∉ w)
    (hnb : jsonListNoBr vs = true) :
    extract_charts_json content.data = some (jrender (Json.arr vs)) ∧
    parseJsonArr ((extract_charts_json content.data).getD []) =
      parseJsonArr (jrender (Json.arr vs)) := by
  have harr : jrender (Json.arr vs) = '[' :: (jrenderList vs ++ [']']) := rfl
  have hmain : extract_charts_json content.data = some (jrender (Json.arr vs)) := by
    unfold extract_charts_json
    rw [if_pos hmark, hsec]
    have hsec2 : sec = w ++ '[' :: (jrenderList vs ++ (']' :: rest)) := by
      rw [hshape, harr]
      simp
    have hcontains : sec.contains '[' = true := by
      rw [hsec2]
      simp [List.contains_eq_any_beq]
    rw [if_pos hcontains]
    unfold bracketSlice
    rw [hsec2, dropWhile_until_lb hw]
    have hopen : findMatch ('[' :: (jrenderList vs ++ (']' :: rest))) 0 =
        (findMatch (jrenderList vs ++ (']' :: rest)) 1).map
          (fun t => '[' :: t) := by
      simp [findMatch]
    rw [hopen, jrenderList_neutral vs hnb 1 (by omega)]
    have hclose : findMatch (']' :: rest) 1 = some [']'] := by
      simp [findMatch]
    rw [hclose]
    simp [harr]
  refine ⟨hmain, ?_⟩
  rw [hmain, Option.getD_some]

theorem extract_charts_bracket_matching_witness :
    extract_charts_json "x CHARTS: [\"a\"] tail".data =
      some (jrender (Json.arr (.cons (.str "a") .nil))) ∧
    parseJsonArr ((extract_charts_json "x CHARTS: [\"a\"] tail".data).getD []) =
      parseJsonArr (jrender (Json.arr (.cons (.str "a") .nil))) :=
  extract_charts_bracket_matching "x CHARTS: [\"a\"] tail"
    "[\"a\"] tail".data [] " tail".data (.cons (.str "a") .nil)
    (by decide) (by decide) (by decide) (by decide) (by decide)

end Ecom
